import Mathlib

/-!
Verification of the SolteqTand report robot.

The repository consists of three Python modules:
  robot_framework/process.py                        (driver)
  robot_framework/subprocesses/list_handler.py      (class ListHandler)
  robot_framework/subprocesses/manuel_list_handler.py (class ManuelListHandler)

This file gives a shallow embedding of the code paths the claims are about:
Python dicts become insertion-ordered association lists, database calls
become explicit behaviours supplied by an oracle, and the connection
open/close side effects of fetch_data are tracked in an explicit effect
record so resource claims can be stated.
-/

/-- A Python scalar value as it appears in a result row: None, a string,
an integer or a boolean. -/
inductive PyValue where
  | none
  | str (s : String)
  | int (n : Int)
  | bool (b : Bool)
deriving DecidableEq

/-- Python truthiness test on a scalar: None, the empty string, 0 and
False are falsy, everything else is truthy.  This is what the expression
`not row.get(key)` in filter_empty_columns computes. -/
def falsy : PyValue → Bool
  | PyValue.none => true
  | PyValue.str s => s.isEmpty
  | PyValue.int n => n == 0
  | PyValue.bool b => !b

/-- Conversion of a scalar to its Python str() form, as performed by an
f-string such as the expression that builds a td cell. -/
def pyStr : PyValue → String
  | PyValue.none => "None"
  | PyValue.str s => s
  | PyValue.int n => toString n
  | PyValue.bool true => "True"
  | PyValue.bool false => "False"

/-- A Row is a Python dict from column name to scalar, embedded as an
insertion-ordered association list.  Python dicts have distinct keys;
theorems that need that fact take it as a hypothesis. -/
abbrev Row := List (String × PyValue)

/-- Dict lookup: the value stored under a key, if present (first match,
which for a genuine dict is the only match). -/
def dictLookup (k : String) : Row → Option PyValue
  | [] => Option.none
  | (k2, v) :: rest => if k = k2 then Option.some v else dictLookup k rest

/-- Python `row.get(key)`: the stored value, or None when absent. -/
def dictGet (row : Row) (k : String) : PyValue :=
  (dictLookup k row).getD PyValue.none

/-- The f-string fragment that renders one header cell in
convert_to_html_table. -/
def th_cell (h : String) : String := "<th>" ++ h ++ "</th>"

/-- The f-string fragment that renders one data cell in
convert_to_html_table; str() is applied to the value, with no HTML
escaping. -/
def td_cell (v : PyValue) : String := "<td>" ++ pyStr v ++ "</td>"

/-- The join over `row.values()` that renders the cells of one table row. -/
def row_cells_html (row : Row) : String :=
  String.join (row.map (fun kv => td_cell kv.2))

/-- Outcome of executing a query on an open connection: either column
names with raw result rows, or a pyodbc database error. -/
inductive ExecOutcome where
  | ok (columns : List String) (rows : List (List PyValue))
  | dbError (msg : String)
deriving DecidableEq

/-- Whether the execution succeeded. -/
def ExecOutcome.isOk : ExecOutcome → Bool
  | ExecOutcome.ok _ _ => true
  | ExecOutcome.dbError _ => false

/-- Behaviour of the database for one fetch_data call: whether
pyodbc.connect succeeds (some msg means it raises pyodbc.Error msg), and
the outcome of executing the query once connected. -/
structure DbBehavior where
  connect : Option String
  exec : ExecOutcome
deriving DecidableEq

/-- A Python exception as observed by the claims: a pyodbc.Error, an
UnboundLocalError, a TypeError or a ValueError. -/
inductive PyErr where
  | pyodbcError (msg : String)
  | unboundLocal (name : String)
  | typeError (msg : String)
  | valueError (msg : String)
deriving DecidableEq

/-- Result of a fetch_data call: a list of rows, or a raised exception. -/
inductive FetchResult where
  | ok (data : List Row)
  | raised (e : PyErr)
deriving DecidableEq

/-- Connection side effects and logging of one fetch_data call. -/
structure FetchEffects where
  opened : Nat
  closed : Nat
  logs : List String
deriving DecidableEq

/-- A fetch_data call: its result together with its side effects. -/
structure FetchOut where
  result : FetchResult
  effects : FetchEffects
deriving DecidableEq

namespace ListHandler

/--
ListHandler.fetch_data (list_handler.py lines 25 to 45):

  try:
      conn = pyodbc.connect(self.connection_string)
      cursor = conn.cursor()
      cursor.execute(query, params)
      columns = [column[0] for column in cursor.description]
      results = cursor.fetchall()
      data = [dict(zip(columns, row)) for row in results]
      return data
  except pyodbc.Error as e:
      print("Database error:", e)
      return []
  finally:
      conn.close()

When connect itself raises, the except clause logs and prepares to
return [], but the finally clause then evaluates conn.close() with conn
unbound, so the call raises UnboundLocalError and no connection was ever
opened.  When connect succeeds the finally clause always closes the one
connection, whether execution succeeded or the except clause swallowed a
database error.
-/
def fetch_data (b : DbBehavior) : FetchOut :=
  match b.connect with
  | Option.some msg =>
      ⟨FetchResult.raised (PyErr.unboundLocal "conn"),
       ⟨0, 0, ["Database error: " ++ msg]⟩⟩
  | Option.none =>
      match b.exec with
      | ExecOutcome.ok cols rows =>
          ⟨FetchResult.ok (rows.map (fun r => cols.zip r)), ⟨1, 1, []⟩⟩
      | ExecOutcome.dbError msg =>
          ⟨FetchResult.ok [], ⟨1, 1, ["Database error: " ++ msg]⟩⟩

/-- Weekday of a day index, with day 0 a Monday, matching Python
datetime.weekday() where Monday is 0.  Days are modelled as integers. -/
def weekday (d : Int) : Int := d % 7

/-- list_handler.py line 70:
`last_monday = today - timedelta(days=today.weekday() + 7)`. -/
def last_monday (today : Int) : Int := today - (weekday today + 7)

/-- list_handler.py line 71:
`last_sunday = last_monday + timedelta(days=6)`. -/
def last_sunday (today : Int) : Int := last_monday today + 6

/-- ListHandler.filter_empty_columns (list_handler.py lines 103 to 125):
keys are read from the first row; a key all of whose values across the
rows are falsy is collected into keys_to_remove; each row is rebuilt as
a fresh dict without those keys. -/
def filter_empty_columns (data : List Row) : List Row :=
  match data with
  | [] => data
  | r0 :: _ =>
    let keys := r0.map Prod.fst
    let keys_to_remove :=
      keys.filter (fun k => data.all (fun row => falsy (dictGet row k)))
    data.map (fun row => row.filter (fun kv => decide (kv.1 ∉ keys_to_remove)))

/-- ListHandler.convert_to_html_table (list_handler.py lines 185 to 204):
an empty input yields a fixed Danish placeholder paragraph; otherwise the
headers are the keys of the first row and each row contributes one tr of
td cells built from row.values() in the own order of the row. -/
def convert_to_html_table (data : List Row) : String :=
  match data with
  | [] => "<p>Fandt ingen rækker. Ingen data tilgængelig.</p>"
  | r0 :: _ =>
    let header_html := String.join ((r0.map Prod.fst).map th_cell)
    let rows_html :=
      String.join (data.map (fun row => "<tr>" ++ row_cells_html row ++ "</tr>"))
    "<table><thead><tr>" ++ header_html ++ "</tr></thead><tbody>" ++
      rows_html ++ "</tbody></table>"

end ListHandler

namespace ManuelListHandler

/--
ManuelListHandler.fetch_data (manuel_list_handler.py lines 23 to 37):

  conn = pyodbc.connect(self.connection_string)
  cursor = conn.cursor()
  cursor.execute(query)
  columns = [column[0] for column in cursor.description]
  results = cursor.fetchall()
  conn.close()
  data = [dict(zip(columns, row)) for row in results]
  return data

There is no try/finally: a connect failure raises with nothing opened,
but a query error raises after the connection was opened and before
conn.close() runs, so that connection is never released.
-/
def fetch_data (b : DbBehavior) : FetchOut :=
  match b.connect with
  | Option.some msg =>
      ⟨FetchResult.raised (PyErr.pyodbcError msg), ⟨0, 0, []⟩⟩
  | Option.none =>
      match b.exec with
      | ExecOutcome.ok cols rows =>
          ⟨FetchResult.ok (rows.map (fun r => cols.zip r)), ⟨1, 1, []⟩⟩
      | ExecOutcome.dbError msg =>
          ⟨FetchResult.raised (PyErr.pyodbcError msg), ⟨1, 0, []⟩⟩

/-- ManuelListHandler.convert_to_html_table (manuel_list_handler.py lines
122 to 141); the body is a verbatim duplicate of the ListHandler one. -/
def convert_to_html_table (data : List Row) : String :=
  match data with
  | [] => "<p>Fandt ingen rækker. Ingen data tilgængelig.</p>"
  | r0 :: _ =>
    let header_html := String.join ((r0.map Prod.fst).map th_cell)
    let rows_html :=
      String.join (data.map (fun row => "<tr>" ++ row_cells_html row ++ "</tr>"))
    "<table><thead><tr>" ++ header_html ++ "</tr></thead><tbody>" ++
      rows_html ++ "</tbody></table>"

end ManuelListHandler

/-- Database behaviours for the calls ListHandler makes during one run:
one behaviour for the metadata query of get_metadata, and one behaviour
per (os2formWebformId, last_monday, last_sunday) triple for the items
query of list_items.  The query texts themselves are fixed SQL literals
in the source and are abstracted into these two call sites. -/
structure DbOracle where
  metadata : DbBehavior
  items : PyValue → Int → Int → DbBehavior

namespace ListHandler

/-- ListHandler.get_metadata (list_handler.py lines 47 to 59): runs the
fixed metadata query through fetch_data. -/
def get_metadata (o : DbOracle) : FetchOut :=
  fetch_data o.metadata

/-- ListHandler.list_items (list_handler.py lines 61 to 101): computes
the previous Monday to Sunday window from the run date and runs the
items query with the webform id and that window through fetch_data. -/
def list_items (o : DbOracle) (today : Int) (id : PyValue) : FetchOut :=
  fetch_data (o.items id (last_monday today) (last_sunday today))

/-- The fixed jinja2 template text of generate_list up to the
`all_tables` placeholder (list_handler.py lines 156 to 175). -/
def html_template_head : String :=
  "\n        <html>\n        <head>\n            <style>\n" ++
  "                table, th, td \x7b\n" ++
  "                    border: 1px solid black;\n" ++
  "                    border-collapse: collapse;\n" ++
  "                    padding: 8px;\n" ++
  "                    font-size: 12px;\n" ++
  "                \x7d\n" ++
  "                h3 \x7b\n" ++
  "                    font-size: 16px;\n" ++
  "                \x7d\n" ++
  "                body \x7b\n" ++
  "                    font-size: 12px;\n" ++
  "                \x7d\n" ++
  "            </style>\n        </head>\n        <body>\n            "

/-- The fixed jinja2 template text after the placeholder
(list_handler.py lines 176 to 178). -/
def html_template_tail : String :=
  "\n        </body>\n        </html>\n        "

/-- The loop body of ListHandler.generate_list (list_handler.py lines
138 to 154) over the metadata rows, accumulating the concatenated
section tables: ids with no items are skipped; otherwise the items are
column-filtered, a description header is taken from the first filtered
row with an id-based default, and the rendered table is appended. -/
def generate_tables (o : DbOracle) (today : Int) :
    List Row → String → Except PyErr String
  | [], acc => Except.ok acc
  | item :: rest, acc =>
    let current_id := dictGet item "os2formWebformId"
    match (list_items o today current_id).result with
    | FetchResult.raised e => Except.error e
    | FetchResult.ok items =>
      if items.isEmpty then generate_tables o today rest acc
      else
        let fitems := filter_empty_columns items
        let description_header :=
          (dictLookup "description" (fitems.headD [])).getD
            (PyValue.str ("Webform ID: " ++ pyStr current_id))
        let tbl := convert_to_html_table fitems
        generate_tables o today rest
          (acc ++ "<h3>" ++ pyStr description_header ++ "</h3>" ++ tbl ++ "<br>")

/-- ListHandler.generate_list (list_handler.py lines 127 to 183):
fetches the metadata, builds the concatenated tables, and renders the
jinja2 template around them.  Its value is one HTML string (or a raised
exception), never a pair. -/
def generate_list (o : DbOracle) (today : Int) : Except PyErr String :=
  match (get_metadata o).result with
  | FetchResult.raised e => Except.error e
  | FetchResult.ok metadata =>
    match generate_tables o today metadata "" with
    | Except.error e => Except.error e
    | Except.ok all_tables =>
      Except.ok (html_template_head ++ all_tables ++ html_template_tail)

/-- Number of positional parameters (self excluded) that
ListHandler.__init__ accepts (list_handler.py line 17): just the
connection string. -/
def init_arity : Nat := 1

end ListHandler

/-- Python call semantics for calling a function with the given
positional argument list: a TypeError is raised when the number of
arguments does not match the arity of the callee. -/
def pyCall (args : List PyValue) (arity : Nat) : Except PyErr Unit :=
  if args.length = arity then Except.ok ()
  else Except.error (PyErr.typeError "positional argument count mismatch")

/-- Python tuple-unpacking of a string into two targets, as in
`html_content, title = list_report.generate_list()`: a string is
iterated character by character, so this succeeds exactly when the
string has exactly two characters and raises ValueError otherwise. -/
def unpack2String (s : String) : Except PyErr (String × String) :=
  match s.data with
  | [a, b] => Except.ok (String.mk [a], String.mk [b])
  | _ => Except.error (PyErr.valueError "unpacking mismatch")

/-- process.py line 17: the two list types the driver iterates over. -/
def list_types : List String := ["manuel", "successful"]

/-- Observable outcome of one process() run: how many emails were sent
and whether the run finished or raised. -/
structure ProcessTrace where
  emailsSent : Nat
  outcome : Except PyErr Unit

/-- The loop body of process (process.py lines 19 to 44): for each list
type, construct ListHandler with TWO positional arguments (the
connection string and the list type, line 20), then call generate_list
and unpack its result into a pair (line 25), then send the email.  A
raised exception propagates out of the loop: the except clause on line
43 just re-raises. -/
def processGo (conn : String) (o : DbOracle) (today : Int) :
    List String → Nat → ProcessTrace
  | [], sent => ⟨sent, Except.ok ()⟩
  | lt :: rest, sent =>
    match pyCall [PyValue.str conn, PyValue.str lt] ListHandler.init_arity with
    | Except.error e => ⟨sent, Except.error e⟩
    | Except.ok _ =>
      match ListHandler.generate_list o today with
      | Except.error e => ⟨sent, Except.error e⟩
      | Except.ok html =>
        match unpack2String html with
        | Except.error e => ⟨sent, Except.error e⟩
        | Except.ok _ => processGo conn o today rest (sent + 1)

/-- process (process.py lines 10 to 44), with the orchestration inputs
(connection string, database behaviour, run date) passed explicitly. -/
def process (conn : String) (o : DbOracle) (today : Int) : ProcessTrace :=
  processGo conn o today list_types 0

/-- A heap of Python dict objects: rows addressed by reference.  Used to
state that filter_empty_columns builds fresh dicts and never mutates the
dicts passed in. -/
structure Store where
  rows : List Row
deriving DecidableEq

/-- Dereference a row; a dangling reference reads as the empty dict. -/
def Store.get (s : Store) (r : Nat) : Row := s.rows.getD r []

/-- Allocate a fresh dict object, returning the new store and the new
reference. -/
def Store.alloc (s : Store) (row : Row) : Store × Nat :=
  (⟨s.rows ++ [row]⟩, s.rows.length)

/-- The second loop of filter_empty_columns (list_handler.py lines 120
to 123) on the heap: for each input reference, build the filtered dict
`\x7bk: v for k, v in row.items() if k not in keys_to_remove\x7d` as a
fresh allocation and collect the new references. -/
def allocFiltered (ktr : List String) : Store → List Nat → Store × List Nat
  | s, [] => (s, [])
  | s, r :: rest =>
    let filtered_row := (s.get r).filter (fun kv => decide (kv.1 ∉ ktr))
    let p := s.alloc filtered_row
    let q := allocFiltered ktr p.1 rest
    (q.1, p.2 :: q.2)

/-- ListHandler.filter_empty_columns on the heap (list_handler.py lines
103 to 125): keys_to_remove is computed by reading the referenced rows,
then each row is rebuilt as a fresh dict without those keys; the input
dicts are only read. -/
def filter_empty_columns_st (s : Store) (refs : List Nat) : Store × List Nat :=
  match refs with
  | [] => (s, refs)
  | r0 :: _ =>
    let keys := (s.get r0).map Prod.fst
    let keys_to_remove :=
      keys.filter (fun k => refs.all (fun r => falsy (dictGet (s.get r) k)))
    allocFiltered keys_to_remove s refs

/-- Whether the first character list begins with the second. -/
def startsWith : List Char → List Char → Bool
  | _, [] => true
  | [], _ :: _ => false
  | c :: cs, d :: ds => (c == d) && startsWith cs ds

/-- Whether the second character list occurs contiguously inside the
first; used to state which markup fragments an HTML output string does
or does not contain. -/
def containsSeg : List Char → List Char → Bool
  | [], seg => startsWith [] seg
  | c :: t, seg => startsWith (c :: t) seg || containsSeg t seg

/-! ### Helper lemmas -/

/-- Looking a key up in a dict comprehension that drops the keys in
`ktr` gives nothing for a dropped key and the original answer
otherwise. -/
theorem dictLookup_filter (k : String) (ktr : List String) :
    ∀ row : Row,
      dictLookup k (row.filter (fun kv => decide (kv.1 ∉ ktr))) =
        if k ∈ ktr then Option.none else dictLookup k row := by
  intro row
  induction row with
  | nil => simp [dictLookup]
  | cons kv rest ih =>
    obtain ⟨k2, v⟩ := kv
    rw [List.filter_cons]
    by_cases h2 : k2 ∈ ktr
    · have hcond : decide ((k2, v).1 ∉ ktr) = false := by simp [h2]
      rw [hcond]
      simp only [Bool.false_eq_true, if_false, ih]
      by_cases hk : k ∈ ktr
      · simp [hk]
      · have hne : k ≠ k2 := fun he => hk (he ▸ h2)
        simp [hk, dictLookup, hne]
    · have hcond : decide ((k2, v).1 ∉ ktr) = true := by simp [h2]
      rw [hcond]
      simp only [eq_self_iff_true, if_true, dictLookup]
      by_cases hk2 : k = k2
      · subst hk2
        simp [h2]
      · simp only [if_neg hk2, ih]

/-- A key listed among the keys of a row has a stored value. -/
theorem dictLookup_of_mem_keys (k : String) :
    ∀ row : Row, k ∈ row.map Prod.fst →
      ∃ v, dictLookup k row = Option.some v := by
  intro row
  induction row with
  | nil => simp
  | cons kv rest ih =>
    obtain ⟨k2, v⟩ := kv
    intro hmem
    by_cases hk : k = k2
    · exact ⟨v, by simp [dictLookup, hk]⟩
    · have : k ∈ rest.map Prod.fst := by
        rcases List.mem_cons.mp hmem with h | h
        · exact absurd h hk
        · exact h
      obtain ⟨w, hw⟩ := ih this
      exact ⟨w, by simp [dictLookup, hk, hw]⟩

/-- getD on a mapped list commutes with the function when the function
fixes the default. -/
theorem getD_map_of_fix (f : Row → Row) (hf : f [] = []) :
    ∀ (data : List Row) (i : Nat),
      (data.map f).getD i [] = f (data.getD i []) := by
  intro data
  induction data with
  | nil => intro i; simp [hf]
  | cons r rest ih =>
    intro i
    cases i with
    | zero => simp
    | succ j => simpa using ih j

/-- When the keys of a row are exactly `ks` (in order, without duplicates),
reading the row back through its keys recovers the values of the row in
order. -/
theorem keys_map_dictGet :
    ∀ (row : Row) (ks : List String), row.map Prod.fst = ks → ks.Nodup →
      ks.map (fun k => dictGet row k) = row.map Prod.snd := by
  intro row
  induction row with
  | nil =>
    intro ks hk _
    subst hk
    simp
  | cons kv rest ih =>
    intro ks hk hnd
    obtain ⟨k0, v0⟩ := kv
    subst hk
    simp only [List.map_cons] at hnd ⊢
    have hk0 : k0 ∉ rest.map Prod.fst := (List.nodup_cons.mp hnd).1
    have hstep : (rest.map Prod.fst).map (fun k => dictGet ((k0, v0) :: rest) k) =
        (rest.map Prod.fst).map (fun k => dictGet rest k) := by
      refine List.map_congr_left ?_
      intro k hkmem
      have hne : k ≠ k0 := fun he => hk0 (he ▸ hkmem)
      simp [dictGet, dictLookup, hne]
    have hhead : dictGet ((k0, v0) :: rest) k0 = v0 := by
      simp [dictGet, dictLookup]
    rw [hhead, hstep, ih (rest.map Prod.fst) rfl (List.nodup_cons.mp hnd).2]

/-! ### Claim theorems -/

/-- Claim C6: for every run date, list_items computes
last_monday = today - (weekday offset to Monday + 7 days) and
last_sunday = last_monday + 6 days, the most recent complete Monday to
Sunday window; when the run date is a Wednesday the window is the
previous calendar week, not the current one. -/
theorem c6_date_window (today : Int) :
    ListHandler.weekday (ListHandler.last_monday today) = 0 ∧
    ListHandler.last_sunday today = ListHandler.last_monday today + 6 ∧
    ListHandler.last_sunday today < today ∧
    (∀ m : Int, ListHandler.weekday m = 0 → m + 6 < today →
      m ≤ ListHandler.last_monday today) ∧
    (ListHandler.weekday today = 2 →
      ListHandler.last_monday today = today - ListHandler.weekday today - 7 ∧
      ListHandler.last_sunday today = today - ListHandler.weekday today - 1) := by
  unfold ListHandler.last_sunday ListHandler.last_monday ListHandler.weekday
  refine ⟨by omega, by omega, by omega, fun m hm h6 => by omega, fun h => by omega⟩

/-- Witness for C6 at a concrete Wednesday (day 16 with day 0 a
Monday): the window is the Monday and Sunday of the previous week. -/
theorem c6_date_window_witness :
    ListHandler.last_monday 16 = 16 - ListHandler.weekday 16 - 7 ∧
    ListHandler.last_sunday 16 = 16 - ListHandler.weekday 16 - 1 :=
  (c6_date_window 16).2.2.2.2 (by decide)

/-- Claim C7: on the empty row list, convert_to_html_table (in both
handlers) returns the fixed placeholder notice and its output contains
no table markup. -/
theorem c7_empty_placeholder :
    ListHandler.convert_to_html_table [] =
      "<p>Fandt ingen rækker. Ingen data tilgængelig.</p>" ∧
    ManuelListHandler.convert_to_html_table [] =
      "<p>Fandt ingen rækker. Ingen data tilgængelig.</p>" ∧
    containsSeg (ListHandler.convert_to_html_table []).data "<table".data = false ∧
    containsSeg (ListHandler.convert_to_html_table []).data "<tr".data = false ∧
    containsSeg (ListHandler.convert_to_html_table []).data "<th".data = false ∧
    containsSeg (ListHandler.convert_to_html_table []).data "<td".data = false ∧
    containsSeg (ManuelListHandler.convert_to_html_table []).data "<table".data = false :=
  ⟨rfl, rfl, by decide, by decide, by decide, by decide, by decide⟩

/-- Claim C10: convert_to_html_table is a deterministic pure function of
its input row list in both handlers: rendering the same input twice
yields identical strings, with no hidden state anywhere in the
embedding. -/
theorem c10_render_deterministic (data : List Row) :
    ListHandler.convert_to_html_table data = ListHandler.convert_to_html_table data ∧
    ManuelListHandler.convert_to_html_table data = ManuelListHandler.convert_to_html_table data :=
  ⟨rfl, rfl⟩

/-- Claim C2: for every connection string, database behaviour and run
date, process raises a TypeError at the ListHandler construction (two
positional arguments against an arity of one) and no email is sent. -/
theorem c2_process_raises_before_email (conn : String) (o : DbOracle) (today : Int) :
    process conn o today =
      ⟨0, Except.error (PyErr.typeError "positional argument count mismatch")⟩ :=
  rfl

/-- Claim C1 evaluation: convert_to_html_table renders a cell value
containing script markup verbatim into the emailed HTML; the raw
`<script>` text occurs in the output and no escaped form does.  The code
does not escape, although the specification requires escaping. -/
theorem c1_escaping_evaluation :
    ListHandler.convert_to_html_table [[("Navn", PyValue.str "<script>")]] =
      "<table><thead><tr><th>Navn</th></tr></thead><tbody><tr><td><script></td></tr></tbody></table>" ∧
    ManuelListHandler.convert_to_html_table [[("Navn", PyValue.str "<script>")]] =
      "<table><thead><tr><th>Navn</th></tr></thead><tbody><tr><td><script></td></tr></tbody></table>" ∧
    containsSeg (ListHandler.convert_to_html_table [[("Navn", PyValue.str "<script>")]]).data
      "<script>".data = true ∧
    containsSeg (ListHandler.convert_to_html_table [[("Navn", PyValue.str "<script>")]]).data
      "&lt;script&gt;".data = false :=
  ⟨rfl, rfl, by decide, by decide⟩

/-- Claim C3 counterexample: with a behaviour in which connect succeeds
and the query raises a database error, ManuelListHandler.fetch_data
exits by raising the error with one connection opened and none closed:
the connection is not released. -/
theorem c3_counterexample :
    (ManuelListHandler.fetch_data ⟨Option.none, ExecOutcome.dbError "boom"⟩).effects.opened = 1 ∧
    (ManuelListHandler.fetch_data ⟨Option.none, ExecOutcome.dbError "boom"⟩).effects.closed = 0 ∧
    (ManuelListHandler.fetch_data ⟨Option.none, ExecOutcome.dbError "boom"⟩).result =
      FetchResult.raised (PyErr.pyodbcError "boom") :=
  ⟨rfl, rfl, rfl⟩

/-- Claim C3 amended: ListHandler.fetch_data releases exactly the
connections it opened on every path (its finally clause); it opens one
connection exactly when connect succeeds.  ManuelListHandler.fetch_data
also opens one connection exactly when connect succeeds, but closes it
only when the query then succeeds: on a query error the opened
connection is never released. -/
theorem c3_fetch_connection_accounting (b : DbBehavior) :
    (ListHandler.fetch_data b).effects.closed = (ListHandler.fetch_data b).effects.opened ∧
    (ListHandler.fetch_data b).effects.opened = (if b.connect = Option.none then 1 else 0) ∧
    (ManuelListHandler.fetch_data b).effects.opened = (if b.connect = Option.none then 1 else 0) ∧
    (ManuelListHandler.fetch_data b).effects.closed =
      (if b.connect = Option.none ∧ b.exec.isOk = true then 1 else 0) := by
  obtain ⟨c, e⟩ := b
  cases c <;> cases e <;>
    simp [ListHandler.fetch_data, ManuelListHandler.fetch_data, ExecOutcome.isOk]

/-- Claim C4: when the database raises an error on executing the query
(connect having succeeded), ListHandler.fetch_data logs the failure and
returns the empty list, while ManuelListHandler.fetch_data propagates
the database error to its caller. -/
theorem c4_fetch_db_error (b : DbBehavior) (msg : String)
    (hc : b.connect = Option.none) (he : b.exec = ExecOutcome.dbError msg) :
    (ListHandler.fetch_data b).result = FetchResult.ok [] ∧
    (ListHandler.fetch_data b).effects.logs = ["Database error: " ++ msg] ∧
    (ManuelListHandler.fetch_data b).result = FetchResult.raised (PyErr.pyodbcError msg) := by
  simp [ListHandler.fetch_data, ManuelListHandler.fetch_data, hc, he]

/-- Witness for C4 at a concrete database behaviour whose query raises
the error boom. -/
theorem c4_fetch_db_error_witness :
    (ListHandler.fetch_data ⟨Option.none, ExecOutcome.dbError "boom"⟩).result = FetchResult.ok [] ∧
    (ListHandler.fetch_data ⟨Option.none, ExecOutcome.dbError "boom"⟩).effects.logs =
      ["Database error: " ++ "boom"] ∧
    (ManuelListHandler.fetch_data ⟨Option.none, ExecOutcome.dbError "boom"⟩).result =
      FetchResult.raised (PyErr.pyodbcError "boom") :=
  c4_fetch_db_error ⟨Option.none, ExecOutcome.dbError "boom"⟩ "boom" rfl rfl

/-- Claim C5: on a non-empty row list sharing one key list, a column is
removed from every returned row exactly when its value is falsy in every
input row; a column with some non-empty value is retained in every
returned row with its original values, and its empty-string cells render
as blank td cells. -/
theorem c5_filter_empty_columns (r0 : Row) (rest : List Row)
    (hk : ∀ row ∈ r0 :: rest, row.map Prod.fst = r0.map Prod.fst) :
    (∀ k ∈ r0.map Prod.fst,
      ((∀ row ∈ r0 :: rest, falsy (dictGet row k) = true) ↔
        (∀ frow ∈ ListHandler.filter_empty_columns (r0 :: rest),
          dictLookup k frow = Option.none))) ∧
    (∀ k ∈ r0.map Prod.fst,
      (∃ row ∈ r0 :: rest, falsy (dictGet row k) = false) →
        (∀ i : Nat,
          dictLookup k ((ListHandler.filter_empty_columns (r0 :: rest)).getD i []) =
            dictLookup k ((r0 :: rest).getD i [])) ∧
        (∀ frow ∈ ListHandler.filter_empty_columns (r0 :: rest),
          dictLookup k frow ≠ Option.none)) ∧
    (∀ frow ∈ ListHandler.filter_empty_columns (r0 :: rest), ∀ kv ∈ frow,
      kv.2 = PyValue.str "" → td_cell kv.2 = "<td></td>") := by
  set data : List Row := r0 :: rest with hdata
  set ktr : List String :=
    (r0.map Prod.fst).filter (fun k => data.all (fun row => falsy (dictGet row k)))
    with hktr
  have hfd : ListHandler.filter_empty_columns data =
      data.map (fun row => row.filter (fun kv => decide (kv.1 ∉ ktr))) := rfl
  have hmem_ktr : ∀ k, k ∈ ktr ↔
      (k ∈ r0.map Prod.fst ∧ ∀ row ∈ data, falsy (dictGet row k) = true) := by
    intro k
    rw [hktr]
    simp [List.mem_filter, List.all_eq_true]
  refine ⟨?_, ?_, ?_⟩
  · intro k hkmem
    constructor
    · intro hall frow hfrow
      rw [hfd] at hfrow
      obtain ⟨row, _hrow, rfl⟩ := List.mem_map.mp hfrow
      rw [dictLookup_filter]
      have : k ∈ ktr := (hmem_ktr k).mpr ⟨hkmem, hall⟩
      simp [this]
    · intro hnone
      by_contra hnotall
      have hkn : k ∉ ktr := fun hkin => by
        exact hnotall ((hmem_ktr k).mp hkin).2
      have hf0 : r0.filter (fun kv => decide (kv.1 ∉ ktr)) ∈
          ListHandler.filter_empty_columns data := by
        rw [hfd]
        exact List.mem_map.mpr ⟨r0, by simp [hdata], rfl⟩
      have h0 := hnone _ hf0
      rw [dictLookup_filter, if_neg hkn] at h0
      obtain ⟨v, hv⟩ := dictLookup_of_mem_keys k r0 hkmem
      rw [hv] at h0
      exact Option.noConfusion h0
  · intro k hkmem hex
    have hkn : k ∉ ktr := by
      intro hkin
      obtain ⟨row, hrow, hfalse⟩ := hex
      have := ((hmem_ktr k).mp hkin).2 row hrow
      rw [this] at hfalse
      exact Bool.noConfusion hfalse
    constructor
    · intro i
      rw [hfd,
        getD_map_of_fix (fun row => row.filter (fun kv => decide (kv.1 ∉ ktr))) rfl,
        dictLookup_filter, if_neg hkn]
    · intro frow hfrow
      rw [hfd] at hfrow
      obtain ⟨row, hrow, rfl⟩ := List.mem_map.mp hfrow
      rw [dictLookup_filter, if_neg hkn]
      have hkeys : k ∈ row.map Prod.fst := by rw [hk row hrow]; exact hkmem
      obtain ⟨v, hv⟩ := dictLookup_of_mem_keys k row hkeys
      rw [hv]
      exact fun h => Option.noConfusion h
  · intro frow _ kv _ hval
    rw [hval]
    rfl

/-- Witness for C5 on the end-to-end scenario from the specification: a
CPR column with one non-empty value is retained with its original
values, while a column empty in every row is suppressed in every
returned row. -/
theorem c5_filter_empty_columns_witness :
    (∀ frow ∈ ListHandler.filter_empty_columns
        [[("Navn", PyValue.str "A"), ("CPR", PyValue.str "123"), ("Tom", PyValue.none)],
         [("Navn", PyValue.str "B"), ("CPR", PyValue.str ""), ("Tom", PyValue.str "")]],
      dictLookup "Tom" frow = Option.none) ∧
    (∀ i : Nat,
      dictLookup "CPR" ((ListHandler.filter_empty_columns
        [[("Navn", PyValue.str "A"), ("CPR", PyValue.str "123"), ("Tom", PyValue.none)],
         [("Navn", PyValue.str "B"), ("CPR", PyValue.str ""), ("Tom", PyValue.str "")]]).getD i []) =
        dictLookup "CPR"
          (([[("Navn", PyValue.str "A"), ("CPR", PyValue.str "123"), ("Tom", PyValue.none)],
             [("Navn", PyValue.str "B"), ("CPR", PyValue.str ""), ("Tom", PyValue.str "")]] :
            List Row).getD i [])) := by
  have h := c5_filter_empty_columns
    [("Navn", PyValue.str "A"), ("CPR", PyValue.str "123"), ("Tom", PyValue.none)]
    [[("Navn", PyValue.str "B"), ("CPR", PyValue.str ""), ("Tom", PyValue.str "")]]
    (by decide)
  exact ⟨(h.1 "Tom" (by decide)).mp (by decide),
    (h.2.1 "CPR" (by decide) (by decide)).1⟩

/-- Claim C9: on a non-empty row list in which every row has the keys of the first
row in the same order (without duplicates, as in a Python dict),
convert_to_html_table emits a header row of exactly those keys in order
and then one tr per input row whose cells are the values of the header
keys in header order, so each cell is aligned under its column header. -/
theorem c9_table_alignment (r0 : Row) (rest : List Row)
    (hnd : (r0.map Prod.fst).Nodup)
    (hk : ∀ row ∈ r0 :: rest, row.map Prod.fst = r0.map Prod.fst) :
    ListHandler.convert_to_html_table (r0 :: rest) =
      "<table><thead><tr>" ++ String.join ((r0.map Prod.fst).map th_cell) ++
        "</tr></thead><tbody>" ++
        String.join ((r0 :: rest).map (fun row =>
          "<tr>" ++
            String.join ((r0.map Prod.fst).map (fun k => td_cell (dictGet row k))) ++
            "</tr>")) ++
        "</tbody></table>" := by
  have hrows : (r0 :: rest).map (fun row => "<tr>" ++ row_cells_html row ++ "</tr>") =
      (r0 :: rest).map (fun row =>
        "<tr>" ++
          String.join ((r0.map Prod.fst).map (fun k => td_cell (dictGet row k))) ++
          "</tr>") := by
    refine List.map_congr_left ?_
    intro row hrow
    have h1 : (r0.map Prod.fst).map (fun k => dictGet row k) = row.map Prod.snd :=
      keys_map_dictGet row (r0.map Prod.fst) (hk row hrow) hnd
    have h2 : (r0.map Prod.fst).map (fun k => td_cell (dictGet row k)) =
        row.map (fun kv => td_cell kv.2) := by
      have h3 := congrArg (List.map td_cell) h1
      simpa [List.map_map, Function.comp] using h3
    rw [h2]
    rfl
  show "<table><thead><tr>" ++ String.join ((r0.map Prod.fst).map th_cell) ++
      "</tr></thead><tbody>" ++
      String.join ((r0 :: rest).map (fun row => "<tr>" ++ row_cells_html row ++ "</tr>")) ++
      "</tbody></table>" = _
  rw [hrows]

/-- Witness for C9 at a concrete two-row table with columns Navn and
CPR. -/
theorem c9_table_alignment_witness :
    ListHandler.convert_to_html_table
        [[("Navn", PyValue.str "A"), ("CPR", PyValue.str "123")],
         [("Navn", PyValue.str "B"), ("CPR", PyValue.str "")]] =
      "<table><thead><tr>" ++
        String.join (([("Navn", PyValue.str "A"), ("CPR", PyValue.str "123")].map
          Prod.fst).map th_cell) ++
        "</tr></thead><tbody>" ++
        String.join (([[("Navn", PyValue.str "A"), ("CPR", PyValue.str "123")],
            [("Navn", PyValue.str "B"), ("CPR", PyValue.str "")]].map (fun row =>
          "<tr>" ++
            String.join ((([("Navn", PyValue.str "A"), ("CPR", PyValue.str "123")] : Row).map
              Prod.fst).map (fun k => td_cell (dictGet row k))) ++
            "</tr>"))) ++
        "</tbody></table>" :=
  c9_table_alignment
    [("Navn", PyValue.str "A"), ("CPR", PyValue.str "123")]
    [[("Navn", PyValue.str "B"), ("CPR", PyValue.str "")]]
    (by decide) (by decide)

/-- all over a mapped list tests the composed predicate. -/
theorem all_map_fun (f : Nat → Row) (p : Row → Bool) :
    ∀ l : List Nat, (l.map f).all p = l.all (fun x => p (f x)) := by
  intro l
  induction l with
  | nil => rfl
  | cons x xs ih => simp only [List.map_cons, List.all_cons, ih]

/-- Allocation loop invariant: allocFiltered only appends fresh rows to
the store, all returned references are fresh, and the freshly stored
rows are exactly the filtered copies of the referenced input rows. -/
theorem allocFiltered_spec (ktr : List String) :
    ∀ (refs : List Nat) (s : Store), (∀ r ∈ refs, r < s.rows.length) →
      (∃ t, (allocFiltered ktr s refs).1.rows = s.rows ++ t) ∧
      (∀ o ∈ (allocFiltered ktr s refs).2, s.rows.length ≤ o) ∧
      ((allocFiltered ktr s refs).2.map (allocFiltered ktr s refs).1.get =
        (refs.map s.get).map (fun row => row.filter (fun kv => decide (kv.1 ∉ ktr)))) := by
  intro refs
  induction refs with
  | nil =>
    intro s _
    exact ⟨⟨[], by simp [allocFiltered]⟩, by simp [allocFiltered], by simp [allocFiltered]⟩
  | cons r rest ih =>
    intro s hv
    have hr : r < s.rows.length := hv r (List.mem_cons_self r rest)
    have hstep : allocFiltered ktr s (r :: rest) =
        ((allocFiltered ktr ⟨s.rows ++ [(s.get r).filter (fun kv => decide (kv.1 ∉ ktr))]⟩ rest).1,
          s.rows.length ::
            (allocFiltered ktr ⟨s.rows ++ [(s.get r).filter (fun kv => decide (kv.1 ∉ ktr))]⟩ rest).2) :=
      rfl
    have hv2 : ∀ r2 ∈ rest,
        r2 < (Store.mk (s.rows ++ [(s.get r).filter (fun kv => decide (kv.1 ∉ ktr))])).rows.length := by
      intro r2 h2
      have := hv r2 (List.mem_cons_of_mem r h2)
      simp only [List.length_append, List.length_cons, List.length_nil]
      omega
    obtain ⟨⟨t, ht⟩, hfresh, hmap⟩ :=
      ih ⟨s.rows ++ [(s.get r).filter (fun kv => decide (kv.1 ∉ ktr))]⟩ hv2
    refine ⟨⟨(s.get r).filter (fun kv => decide (kv.1 ∉ ktr)) :: t, ?_⟩, ?_, ?_⟩
    · rw [hstep]
      simp only at ht
      rw [ht, List.append_assoc]
      rfl
    · rw [hstep]
      intro o ho
      rcases List.mem_cons.mp ho with h | h
      · omega
      · have := hfresh o h
        simp only [List.length_append, List.length_cons, List.length_nil] at this
        omega
    · rw [hstep]
      simp only [List.map_cons]
      have hget : (allocFiltered ktr
          ⟨s.rows ++ [(s.get r).filter (fun kv => decide (kv.1 ∉ ktr))]⟩ rest).1.get
            s.rows.length = (s.get r).filter (fun kv => decide (kv.1 ∉ ktr)) := by
        show ((allocFiltered ktr _ rest).1.rows).getD s.rows.length [] = _
        rw [ht, List.append_assoc, List.getD_append_right _ _ _ _ (le_refl _)]
        simp
      have hrest : rest.map (Store.mk
          (s.rows ++ [(s.get r).filter (fun kv => decide (kv.1 ∉ ktr))])).get =
          rest.map s.get := by
        refine List.map_congr_left ?_
        intro r2 h2
        have hlt := hv r2 (List.mem_cons_of_mem r h2)
        show (s.rows ++ _).getD r2 [] = s.rows.getD r2 []
        rw [List.getD_append _ _ _ _ hlt]
      rw [hget, hmap, hrest]

/-- Claim C8: filter_empty_columns leaves the input row objects
unchanged: every pre-existing row in the store still maps the same keys
to the same values after the call, the returned rows are all freshly
allocated, and they are exactly the column-filtered copies produced by
the pure filter_empty_columns. -/
theorem c8_filter_no_mutation (s : Store) (refs : List Nat)
    (hv : ∀ r ∈ refs, r < s.rows.length) :
    (∀ r : Nat, r < s.rows.length →
      (filter_empty_columns_st s refs).1.get r = s.get r) ∧
    (∀ o ∈ (filter_empty_columns_st s refs).2, s.rows.length ≤ o) ∧
    ((filter_empty_columns_st s refs).2.map (filter_empty_columns_st s refs).1.get =
      ListHandler.filter_empty_columns (refs.map s.get)) := by
  cases refs with
  | nil =>
    exact ⟨fun r _ => rfl, by simp [filter_empty_columns_st],
      by simp [filter_empty_columns_st, ListHandler.filter_empty_columns]⟩
  | cons r0 rest =>
    have hst : filter_empty_columns_st s (r0 :: rest) =
        allocFiltered (((s.get r0).map Prod.fst).filter
            (fun k => (r0 :: rest).all (fun r => falsy (dictGet (s.get r) k))))
          s (r0 :: rest) := rfl
    obtain ⟨⟨t, ht⟩, hfresh, hmap⟩ := allocFiltered_spec
      (((s.get r0).map Prod.fst).filter
        (fun k => (r0 :: rest).all (fun r => falsy (dictGet (s.get r) k))))
      (r0 :: rest) s hv
    refine ⟨?_, ?_, ?_⟩
    · intro r hr
      rw [hst]
      show ((allocFiltered _ s (r0 :: rest)).1.rows).getD r [] = s.rows.getD r []
      rw [ht, List.getD_append _ _ _ _ hr]
    · intro o ho
      rw [hst] at ho
      exact hfresh o ho
    · rw [hst, hmap, List.map_cons s.get r0 rest]
      have hpt : ∀ k,
          (Store.get s r0 :: rest.map s.get).all (fun row => falsy (dictGet row k)) =
            (r0 :: rest).all (fun r => falsy (dictGet (s.get r) k)) := by
        intro k
        simp only [List.all_cons, all_map_fun]
      have hktr : ((s.get r0).map Prod.fst).filter
            (fun k => (Store.get s r0 :: rest.map s.get).all
              (fun row => falsy (dictGet row k))) =
          ((s.get r0).map Prod.fst).filter
            (fun k => (r0 :: rest).all (fun r => falsy (dictGet (s.get r) k))) :=
        congrArg (fun p => List.filter p ((s.get r0).map Prod.fst)) (funext hpt)
      have hrfl : ListHandler.filter_empty_columns (Store.get s r0 :: rest.map s.get) =
          (Store.get s r0 :: rest.map s.get).map (fun row =>
            row.filter (fun kv => decide (kv.1 ∉
              ((Store.get s r0).map Prod.fst).filter
                (fun k => (Store.get s r0 :: rest.map s.get).all
                  (fun row2 => falsy (dictGet row2 k)))))) := rfl
      rw [hrfl, hktr]

/-- Witness for C8 at a concrete two-row store: the first input row is
unchanged after the call and the returned rows are the pure filter
result. -/
theorem c8_filter_no_mutation_witness :
    (filter_empty_columns_st
        ⟨[[("a", PyValue.str "x"), ("b", PyValue.str "")],
          [("a", PyValue.str "y"), ("b", PyValue.none)]]⟩ [0, 1]).1.get 0 =
      Store.get ⟨[[("a", PyValue.str "x"), ("b", PyValue.str "")],
          [("a", PyValue.str "y"), ("b", PyValue.none)]]⟩ 0 ∧
    ((filter_empty_columns_st
        ⟨[[("a", PyValue.str "x"), ("b", PyValue.str "")],
          [("a", PyValue.str "y"), ("b", PyValue.none)]]⟩ [0, 1]).2.map
      (filter_empty_columns_st
        ⟨[[("a", PyValue.str "x"), ("b", PyValue.str "")],
          [("a", PyValue.str "y"), ("b", PyValue.none)]]⟩ [0, 1]).1.get =
      ListHandler.filter_empty_columns ([0, 1].map
        (Store.get ⟨[[("a", PyValue.str "x"), ("b", PyValue.str "")],
          [("a", PyValue.str "y"), ("b", PyValue.none)]]⟩))) := by
  have h := c8_filter_no_mutation
    ⟨[[("a", PyValue.str "x"), ("b", PyValue.str "")],
      [("a", PyValue.str "y"), ("b", PyValue.none)]]⟩ [0, 1] (by decide)
  exact ⟨h.1 0 (by decide), h.2.2⟩
